import Mathlib

/-!
# Verification of the instakoo place-diagnosis pipeline

Shallow embedding of the pure logic of `server/server.js` (the repository
bundles two revisions of the server in that file; where the claims cite
both, both are embedded, the top revision as the unsuffixed name and the
bottom revision as the `V2`-style variants noted in the doc comments).

Modelling conventions:
* JavaScript numbers are modelled as `Nat`/`Int`/`ℚ` (exact arithmetic;
  `Math.floor` becomes `Nat` division or `Int.floor` on `ℚ`).
* Asynchronous effects (the outbound HTTP GET of the resolver, a browser
  scrape attempt) are modelled by passing the effect's outcome in as data.
* Regular-expression searches are modelled by explicit scanners over
  `List Char` that mirror the concrete patterns of the source.
-/

/-- The `ScrapedSnapshot` shape returned by `scrapeNaverPlace` (both revisions):
fields at `server.js:286-297` and `server.js:683-693`. -/
structure Snapshot where
  placeName : String
  directionsText : String
  storeInfoText : String
  photoCount : Nat
  blogReviewCount : Nat
  receiptReviewCount : Nat
  menuCount : Nat
  menuWithDescriptionCount : Nat
  fullText : String
deriving DecidableEq

/-- Keyword sets returned by `extractKeywords` (`server.js:71-102`, `572-591`). -/
structure KeywordSet where
  main : List String
  sub : List String
deriving DecidableEq

/-- One entry of the score breakdown built by the second revision's
`calculateNaverScore` (`server.js:703-773`). -/
structure ScoreBreakdownItem where
  name : String
  score : Nat
  max : Nat
  notes : String
deriving DecidableEq

/-- Result record of `calculateNaverScore` (both revisions return
`{score, grade, keywords, breakdown, recommendations}`). -/
structure NaverAnalysis where
  score : Nat
  grade : String
  breakdown : List ScoreBreakdownItem
  recommendations : List String
  keywords : KeywordSet
deriving DecidableEq

/-- The character class kept by the sanitising replace
`text.replace(/[^\w\s가-힣]/g, " ")`: ASCII word chars (`\w`), whitespace
(`\s`), and Hangul syllables (U+AC00 to U+D7A3). -/
def isKeywordChar (c : Char) : Bool :=
  c.isAlphanum || c == '_' || c.isWhitespace || (44032 ≤ c.toNat && c.toNat ≤ 55203)

/-- Models `text.replace(/[^\w\s가-힣]/g, " ")`: every character outside the kept
class becomes a space. -/
def sanitizeText (s : String) : List Char :=
  s.data.map fun c => if isKeywordChar c then c else ' '

/-- Helper of `tokenize`: accumulates the current token (reversed) while
walking the character list. -/
def tokenizeAux : List Char → List Char → List String
  | cur, [] => if cur = [] then [] else [⟨cur.reverse⟩]
  | cur, c :: rest =>
    if c.isWhitespace then
      if cur = [] then tokenizeAux [] rest else ⟨cur.reverse⟩ :: tokenizeAux [] rest
    else tokenizeAux (c :: cur) rest

/-- Models `.split(/\s+/)` on the sanitised text.  JavaScript's split can yield an
empty boundary token at either end; those are dropped here, which is
observationally equal because the length-`> 1` filter discards them anyway. -/
def tokenize (cs : List Char) : List String :=
  tokenizeAux [] cs

/-- Stopword list of the first revision's `extractKeywords` (`server.js:74-90`). -/
def stopWordsV1 : List String :=
  ["있는", "없는", "하는", "및", "등", "를", "을", "가", "이", "은", "는", "에", "의", "도", "다"]

/-- Stopword list of the second revision's `extractKeywords` (`server.js:576`). -/
def stopWordsV2 : List String :=
  ["있는", "없는", "하는", "및", "등", "를", "을", "가", "이", "은", "는", "에", "의", "도", "다",
   "습니다", "합니다", "안녕하세요", "입니다"]

/-- The token filter of `extractKeywords`: `t.length > 1 && !stopWords.includes(t)`. -/
def keywordFilter (stop : List String) (t : String) : Bool :=
  decide (1 < t.length ∧ t ∉ stop)

/-- One step of the frequency count `freq[t] = (freq[t] || 0) + 1`, on an
association list kept in first-occurrence order (JS object key order). -/
def bump (acc : List (String × Nat)) (t : String) : List (String × Nat) :=
  if t ∈ acc.map Prod.fst then
    acc.map fun p => if p.1 = t then (p.1, p.2 + 1) else p
  else acc ++ [(t, 1)]

/-- Models `Object.entries(freq)` after the counting loop: keys in first-occurrence
order with their counts. -/
def countTokens (ts : List String) : List (String × Nat) :=
  ts.foldl bump []

/-- Stable insertion (descending by count) used to model the stable JS
`sort((a, b) => b[1] - a[1])`; a stable sort's output is unique, so any
stable algorithm represents it faithfully. -/
def insertDesc (p : String × Nat) : List (String × Nat) → List (String × Nat)
  | [] => [p]
  | q :: rest => if q.2 < p.2 then p :: q :: rest else q :: insertDesc p rest

/-- Stable sort by descending count (left-to-right insertion keeps ties in
insertion order). -/
def sortByCountDesc (l : List (String × Nat)) : List (String × Nat) :=
  l.foldl (fun acc p => insertDesc p acc) []

/-- The function `extractKeywords` parameterised by the stopword list (the two revisions
differ only in that list): `server.js:71-102` and `server.js:572-591`. -/
def extractKeywordsWith (stop : List String) (text : String) : KeywordSet :=
  if text = "" then { main := [], sub := [] }
  else
    let tokens := tokenize (sanitizeText text)
    let good := tokens.filter (keywordFilter stop)
    let sorted := sortByCountDesc (countTokens good)
    { main := (sorted.take 5).map Prod.fst
      sub := ((sorted.drop 5).take 7).map Prod.fst }

/-- First revision's `extractKeywords` (`server.js:71-102`). -/
def extractKeywords (text : String) : KeywordSet :=
  extractKeywordsWith stopWordsV1 text

/-- Second revision's `extractKeywords` (`server.js:572-591`). -/
def extractKeywordsV2 (text : String) : KeywordSet :=
  extractKeywordsWith stopWordsV2 text

/-- Grade banding shared by both revisions (`server.js:316-320`, `764-768`):
`"D"` overwritten by the `>= 90 / >= 70 / >= 50 / >= 30` else-if chain. -/
def gradeOf (score : Nat) : String :=
  if 90 ≤ score then "S"
  else if 70 ≤ score then "A"
  else if 50 ≤ score then "B"
  else if 30 ≤ score then "C"
  else "D"

/-- First revision's `calculateNaverScore` (`server.js:306-323`): five
all-or-nothing bonuses, empty breakdown and recommendations. -/
def calculateNaverScoreV1 (data : Snapshot) : NaverAnalysis :=
  let keywords := extractKeywords data.fullText
  let score :=
    (if 300 < data.storeInfoText.length then 25 else 0) +
    (if 50 < data.receiptReviewCount then 15 else 0) +
    (if 10 < data.blogReviewCount then 15 else 0) +
    (if 5 < data.photoCount then 10 else 0) +
    (if 3 ≤ keywords.main.length then 10 else 0)
  { score := score, grade := gradeOf score, breakdown := [], recommendations := [],
    keywords := keywords }

/-- Second revision's `calculateNaverScore` (`server.js:703-773`).
`Math.min(cap, Math.floor((x / d) * cap))` is modelled by the exact
`min cap (x * cap / d)` on `Nat`; the menu-fraction test
`menuWithDescriptionCount / menuCount > 0.5` by `menuCount < 2 * mwd`. -/
def calculateNaverScore (data : Snapshot) : NaverAnalysis :=
  let dirLen := data.directionsText.length
  let dirScore := min 15 (dirLen * 15 / 50)
  let infoLen := data.storeInfoText.length
  let infoScore := min 25 (infoLen * 25 / 300)
  let receiptScore := min 15 (data.receiptReviewCount * 15 / 100)
  let blogScore := min 15 (data.blogReviewCount * 15 / 30)
  let menuScore :=
    (if 0 < data.menuCount then 10 else 0) +
    (if 0 < data.menuCount ∧ data.menuCount < 2 * data.menuWithDescriptionCount then 10 else 0)
  let keywords := extractKeywordsV2 data.fullText
  let extraScore :=
    (if 5 < data.photoCount then 5 else 0) +
    (if 3 ≤ keywords.main.length then 5 else 0)
  let score := dirScore + infoScore + receiptScore + blogScore + menuScore + extraScore
  let recommendations :=
    (if data.receiptReviewCount < 50 then ["영수증 리뷰 이벤트를 통해 방문자 리뷰를 확보하세요."] else []) ++
    (if data.blogReviewCount < 10 then ["블로그 체험단을 통해 상세 후기를 늘려야 합니다."] else []) ++
    (if 0 < data.menuCount ∧ data.menuWithDescriptionCount = 0 then
      ["메뉴마다 상세 설명을 추가하여 검색 노출 확률을 높이세요."] else []) ++
    (if score < 40 then ["전반적인 플레이스 정보(소개글, 메뉴, 사진) 보강이 시급합니다."] else [])
  { score := score
    grade := gradeOf score
    breakdown :=
      [{ name := "찾아오는길 상세안내", score := dirScore, max := 15,
         notes := if dirLen < 20 then "찾아오는 길이 너무 짧거나 없습니다. 상세하게 작성하세요."
                  else "상세하게 잘 작성되었습니다." },
       { name := "업체 소개글(정보)", score := infoScore, max := 25,
         notes := if infoLen < 50 then "소개글이 부족합니다. 키워드를 포함해 500자 이상 작성 추천."
                  else "소개글 분량이 충분합니다." },
       { name := "리뷰 활성화 (영수증/블로그)", score := receiptScore + blogScore, max := 30,
         notes := "방문자 리뷰 " ++ toString data.receiptReviewCount ++ "개, 블로그 리뷰 " ++
                  toString data.blogReviewCount ++ "개" },
       { name := "메뉴 등록 및 설명", score := menuScore, max := 20,
         notes := if data.menuCount = 0 then "메뉴가 등록되지 않았습니다."
                  else toString data.menuCount ++ "개 메뉴 중 " ++
                       toString data.menuWithDescriptionCount ++ "개 설명 보유" },
       { name := "사진 및 키워드", score := extraScore, max := 10,
         notes := "대표 키워드 및 매장 사진 등록 상태" }]
    recommendations := recommendations
    keywords := keywords }

/-! ## Abbreviated-number parser (`parseIgNumber`, `server.js:59-69`)

JavaScript floats are modelled exactly on `ℚ`; `Math.floor` is `Int.floor`.
`parseFloat` (applied, in the source, to an already lowercased string with
commas and whitespace removed) is modelled by `parseFloatQ`. -/

/-- Numeric value of a digit run, as read left to right. -/
def digitsToNat (ds : List Char) : Nat :=
  ds.foldl (fun n c => 10 * n + (c.toNat - 48)) 0

/-- Mantissa part of `parseFloat`: digits, optionally a dot and more digits;
fails (JS `NaN`) when no digit is consumed. Returns the value and the
unconsumed remainder. -/
def parseMantissa (cs : List Char) : Option (ℚ × List Char) :=
  let int := cs.takeWhile Char.isDigit
  let rest := cs.dropWhile Char.isDigit
  if rest.head? = some '.' then
    let rest2 := rest.tail
    let frac := rest2.takeWhile Char.isDigit
    let rest3 := rest2.dropWhile Char.isDigit
    if int.isEmpty && frac.isEmpty then none
    else some ((digitsToNat int : ℚ) + (digitsToNat frac : ℚ) / (10 : ℚ) ^ frac.length, rest3)
  else if int.isEmpty then none
  else some ((digitsToNat int : ℚ), rest)

/-- Exponent part of `parseFloat`: `e` with optional sign and digits; consumed
only when at least one exponent digit follows, otherwise the multiplier is 1. -/
def expMult (cs : List Char) : ℚ :=
  if cs.head? = some 'e' then
    let rest := cs.tail
    let negExp : Bool :=
      if rest.head? = some '-' then true else false
    let rest2 :=
      if rest.head? = some '+' ∨ rest.head? = some '-' then rest.tail else rest
    let ds := rest2.takeWhile Char.isDigit
    if ds.isEmpty then 1
    else if negExp then ((10 : ℚ) ^ digitsToNat ds)⁻¹
    else (10 : ℚ) ^ digitsToNat ds
  else 1

/-- Mantissa followed by optional exponent. -/
def parseNum (cs : List Char) : Option ℚ :=
  (parseMantissa cs).map fun p => p.1 * expMult p.2

/-- JS `parseFloat` on a lowercased, whitespace-free string: optional sign,
then the longest numeric prefix; `none` models `NaN`.  (`Infinity` is
case-sensitive in JS and therefore unreachable after `toLowerCase()`.) -/
def parseFloatQ (s : String) : Option ℚ :=
  match s.data with
  | [] => none
  | c :: rest =>
    if c = '-' then (parseNum rest).map Neg.neg
    else if c = '+' then parseNum rest
    else parseNum (c :: rest)

/-- Models `String(str).replace(/,/g, "").replace(/\s/g, "").toLowerCase()`
(`server.js:61`), as a character list. -/
def cleanStr (s : String) : List Char :=
  (s.data.filter fun c => !(c == ',') && !c.isWhitespace).map Char.toLower

/-- The sequential `includes` checks of `server.js:63-65`: the later
assignments win, so `b` dominates `m` dominates `k`. -/
def igMultiplier (cs : List Char) : Nat :=
  if 'b' ∈ cs then 1000000000
  else if 'm' ∈ cs then 1000000
  else if 'k' ∈ cs then 1000
  else 1

/-- Models `clean.replace(/[kmb]/g, "")` (`server.js:66`). -/
def stripKmb (cs : List Char) : List Char :=
  cs.filter fun c => !(c == 'k') && !(c == 'm') && !(c == 'b')

/-- First revision's `parseIgNumber` (`server.js:59-69`). -/
def parseIgNumber (str : String) : Int :=
  if str = "" then 0
  else
    let clean := cleanStr str
    match parseFloatQ ⟨stripKmb clean⟩ with
    | none => 0
    | some q => ⌊q * (igMultiplier clean : ℚ)⌋

/-- Suffix multiplier of the spec's `<number>[kmb]?` shape (claim-side). -/
def suffixMult : Option Char → Nat
  | none => 1
  | some c =>
    if c = 'k' ∨ c = 'K' then 1000
    else if c = 'm' ∨ c = 'M' then 1000000
    else if c = 'b' ∨ c = 'B' then 1000000000
    else 1

/-- The ten ASCII digit characters (claim-side alphabet). -/
def digitChars : List Char := ['0', '1', '2', '3', '4', '5', '6', '7', '8', '9']

/-! ## URL utilities and the identifier resolver -/

/-- JS `String.prototype.trim`: strip leading and trailing whitespace
(spelled out on the character list so that it evaluates inside the kernel). -/
def trimStr (s : String) : String :=
  ⟨((s.data.dropWhile Char.isWhitespace).reverse.dropWhile Char.isWhitespace).reverse⟩

/-- Embeds `normalizeUrl` (`server.js:112-117`): trim, then prepend `https://` when
no scheme is present; empty stays empty. -/
def normalizeUrl (input : String) : String :=
  let raw := trimStr input
  if raw = "" then ""
  else if "http://".data.isPrefixOf raw.data ∨ "https://".data.isPrefixOf raw.data then raw
  else "https://" ++ raw

/-- If `lit` is a (case-sensitive) prefix of `cs`, the remainder after it. -/
def tryLit (lit cs : List Char) : Option (List Char) :=
  if lit.isPrefixOf cs then some (cs.drop lit.length) else none

/-- Case-insensitive literal match (`lit` given lowercase). -/
def tryLitCI (lit cs : List Char) : Option (List Char) :=
  if (cs.take lit.length).map Char.toLower = lit then some (cs.drop lit.length) else none

/-- Consume one expected character. -/
def tryChar (c : Char) : List Char → Option (List Char)
  | [] => none
  | x :: rest => if x = c then some rest else none

/-- Run a position matcher at every position, leftmost match first — the
search behaviour of `String.prototype.match` with an unanchored regex. -/
def scanFor {α : Type} (m : List Char → Option α) : List Char → Option α
  | [] => none
  | c :: rest =>
    match m (c :: rest) with
    | some a => some a
    | none => scanFor m rest

/-- Position matcher for `/\/place\/(\d+)/`: the captured digit run. -/
def matchPlaceAt (cs : List Char) : Option (List Char) :=
  (tryLit "/place/".data cs).bind fun r =>
    let ds := r.takeWhile Char.isDigit
    if ds.isEmpty then none else some ds

/-- The alternation of
`/\/(restaurant|hospital|pharmacy|clinic|beauty|accommodation|place|hairshop|cafe)\/(\d+)/i`. -/
def typeWords : List (List Char) :=
  ["restaurant", "hospital", "pharmacy", "clinic", "beauty", "accommodation", "place",
   "hairshop", "cafe"].map String.data

/-- Position matcher for the typed-path pattern above: the captured digits. -/
def matchTypeIdAt (cs : List Char) : Option (List Char) :=
  (tryChar '/' cs).bind fun r1 =>
    typeWords.findSome? fun w =>
      (tryLitCI w r1).bind fun r2 =>
        (tryChar '/' r2).bind fun r3 =>
          let ds := r3.takeWhile Char.isDigit
          if ds.isEmpty then none else some ds

/-- Position matcher for `/[?&]placeId=(\d+)/i`. -/
def matchQueryIdAt : List Char → Option (List Char)
  | [] => none
  | c :: r1 =>
    if c = '?' ∨ c = '&' then
      (tryLitCI "placeid=".data r1).bind fun r2 =>
        let ds := r2.takeWhile Char.isDigit
        if ds.isEmpty then none else some ds
    else none

/-- Embeds `extractPlaceIdFromUrl` (`server.js:119-137`): the three patterns in
priority order. -/
def extractPlaceIdFromUrl (urlLike : String) : Option String :=
  match scanFor matchPlaceAt urlLike.data with
  | some ds => some ⟨ds⟩
  | none =>
    match scanFor matchTypeIdAt urlLike.data with
    | some ds => some ⟨ds⟩
    | none => (scanFor matchQueryIdAt urlLike.data).map fun ds => ⟨ds⟩

/-- Position matcher for `/m\.place\.naver\.com\/([^\/]+)\/(\d+)/i`:
the captured `([^\/]+)` and `(\d+)`. -/
def matchTypeAt (cs : List Char) : Option (List Char × List Char) :=
  (tryLitCI "m.place.naver.com/".data cs).bind fun r1 =>
    let t := r1.takeWhile fun c => !(c == '/')
    let r2 := r1.dropWhile fun c => !(c == '/')
    if t.isEmpty then none
    else
      (tryChar '/' r2).bind fun r3 =>
        let ds := r3.takeWhile Char.isDigit
        if ds.isEmpty then none else some (t, ds)

/-- Embeds `extractTypeFromUrl` (`server.js:139-144`): the captured type, lowercased. -/
def extractTypeFromUrl (urlLike : String) : Option String :=
  (scanFor matchTypeAt urlLike.data).map fun p => ⟨p.1.map Char.toLower⟩

/-- Position matcher for `/"placeId"\s*:\s*"(\d+)"/`. -/
def matchJsonIdQuotedAt (cs : List Char) : Option (List Char) :=
  (tryLit "\"placeId\"".data cs).bind fun r1 =>
    (tryChar ':' (r1.dropWhile Char.isWhitespace)).bind fun r3 =>
      (tryChar '"' (r3.dropWhile Char.isWhitespace)).bind fun r5 =>
        let ds := r5.takeWhile Char.isDigit
        if ds.isEmpty then none
        else (tryChar '"' (r5.drop ds.length)).map fun _ => ds

/-- Position matcher for `/"placeId"\s*:\s*(\d+)/`. -/
def matchJsonIdBareAt (cs : List Char) : Option (List Char) :=
  (tryLit "\"placeId\"".data cs).bind fun r1 =>
    (tryChar ':' (r1.dropWhile Char.isWhitespace)).bind fun r3 =>
      let ds := (r3.dropWhile Char.isWhitespace).takeWhile Char.isDigit
      if ds.isEmpty then none else some ds

/-- The landed-page scan of `server.js:183-187`: the four patterns tried in
order (`P1 || P2 || P3 || P4`), returning the pair `(mm[1], mm[2]?)`. -/
def scanHtmlPlace (cs : List Char) : Option (String × Option String) :=
  match scanFor matchJsonIdQuotedAt cs with
  | some ds => some (⟨ds⟩, none)
  | none =>
    match scanFor matchJsonIdBareAt cs with
    | some ds => some (⟨ds⟩, none)
    | none =>
      match scanFor matchTypeAt cs with
      | some (t, ds) => some (⟨t⟩, some ⟨ds⟩)
      | none => (scanFor matchPlaceAt cs).map fun ds => (⟨ds⟩, none)

/-- Models `/^\d+$/.test` (`server.js:190-191`). -/
def isAllDigits (s : String) : Bool :=
  !s.data.isEmpty && s.data.all Char.isDigit

/-- The `ResolvedTarget` record as built by `resolveNaverPlaceUrl` (`server.js:146-216`). -/
structure ResolvedTarget where
  inputUrl : String
  finalUrl : String
  placeId : Option String
  typeHint : Option String
  canonicalUrl : String
deriving DecidableEq

/-- Outcome of the resolver's outbound GET (`server.js:163-174`):
`responseUrl` is `res.request.res.responseUrl` when present, `body` is
`res.data` when it is a string. -/
structure HttpResp where
  responseUrl : Option String
  body : Option String
deriving DecidableEq

/-- The successful-response branch of `resolveNaverPlaceUrl`
(`server.js:176-206`). -/
def resolveOkBranch (inputUrl normalized : String) (resp : HttpResp) : ResolvedTarget :=
  let finalUrl :=
    match resp.responseUrl with
    | some u => if u = "" then normalized else u
    | none => normalized
  let placeId0 := extractPlaceIdFromUrl finalUrl
  let typeHint0 := extractTypeFromUrl finalUrl
  let scanned : Option (String × Option String) :=
    match placeId0, resp.body with
    | none, some html => scanHtmlPlace html.data
    | _, _ => none
  let placeId :=
    match placeId0 with
    | some id => some id
    | none =>
      match scanned with
      | some (_, some g2) => some g2
      | some (g1, none) => if isAllDigits g1 then some g1 else none
      | none => none
  let typeHint :=
    match typeHint0 with
    | some t => some t
    | none =>
      match scanned with
      | some (g1, _) =>
        if g1 ≠ "" ∧ ¬ (isAllDigits g1 = true) then some (⟨g1.data.map Char.toLower⟩ : String)
        else none
      | none => none
  let canonicalUrl :=
    match placeId with
    | some id => "https://map.naver.com/p/entry/place/" ++ id
    | none => finalUrl
  { inputUrl := inputUrl, finalUrl := finalUrl, placeId := placeId,
    typeHint := typeHint, canonicalUrl := canonicalUrl }

/-- Embeds `resolveNaverPlaceUrl` (`server.js:146-216`).  The network effect is
passed in: `Except.error` models any thrown/failed GET (swallowed by the
source's `catch`), `Except.ok` a sub-400 response. -/
def resolveNaverPlaceUrl (inputUrl : String) (net : Except String HttpResp) : ResolvedTarget :=
  let normalized := normalizeUrl inputUrl
  match extractPlaceIdFromUrl normalized with
  | some id =>
    { inputUrl := inputUrl, finalUrl := normalized, placeId := some id,
      typeHint := extractTypeFromUrl normalized,
      canonicalUrl := "https://map.naver.com/p/entry/place/" ++ id }
  | none =>
    match net with
    | Except.error _ =>
      { inputUrl := inputUrl, finalUrl := normalized, placeId := none,
        typeHint := none, canonicalUrl := normalized }
    | Except.ok resp => resolveOkBranch inputUrl normalized resp

/-! ## Candidate builder -/

/-- Helper of `dedupFirst`: keep elements not yet seen. -/
def dedupAux (seen : List String) : List String → List String
  | [] => []
  | x :: rest => if x ∈ seen then dedupAux seen rest else x :: dedupAux (x :: seen) rest

/-- Models `[...new Set(candidates)]`: duplicates removed, first occurrences kept in
order. -/
def dedupFirst (l : List String) : List String :=
  dedupAux [] l

/-- Embeds `buildMobileScrapeCandidates` (`server.js:218-226`). -/
def buildMobileScrapeCandidates (placeId typeHint : Option String) : List String :=
  let id := trimStr (placeId.getD "")
  if id = "" then []
  else
    dedupFirst
      ((match typeHint with
        | some t => if t = "" then [] else ["https://m.place.naver.com/" ++ t ++ "/" ++ id]
        | none => []) ++
       ["https://m.place.naver.com/place/" ++ id,
        "https://m.place.naver.com/restaurant/" ++ id])

/-! ## Retry orchestrator (`server.js:430-444`) and failure classification -/

/-- How one scrape attempt would settle if allowed to finish. -/
inductive AttemptResult where
  | ok (snap : Snapshot)
  | err (msg : String)
deriving DecidableEq

/-- One candidate attempt: its wall-clock duration and its eventual result. -/
structure Attempt where
  duration : Nat
  result : AttemptResult
deriving DecidableEq

/-- Embeds `withTimeout(promise, ms)` (`server.js:104-110`): the race of the
attempt against a fresh `ms`-millisecond timer. -/
def withTimeout (ms : Nat) (a : Attempt) : AttemptResult :=
  if ms ≤ a.duration then AttemptResult.err ("TIMEOUT_" ++ toString ms) else a.result

/-- The sequential candidate loop (`server.js:434-444`): each attempt raced
against its own fresh 55000 ms timer; on failure the error is recorded and
the loop continues; after the loop, `throw lastErr || Error("SCRAPE_FAILED:
all candidates failed")`. -/
def runCandidates : List Attempt → Option String → Except String Snapshot
  | [], lastErr => Except.error (lastErr.getD "SCRAPE_FAILED: all candidates failed")
  | a :: rest, _lastErr =>
    match withTimeout 55000 a with
    | AttemptResult.ok s => Except.ok s
    | AttemptResult.err e => runCandidates rest (some e)

/-- The endpoint's catch-block classification (`server.js:475-489`):
`TIMEOUT` when the error detail contains `TIMEOUT_` or `TIMEOUT`, otherwise
`SCRAPE_FAILED`. -/
def classifyFailure (detail : String) : String :=
  if ("TIMEOUT_".data <:+: detail.data) ∨ ("TIMEOUT".data <:+: detail.data) then "TIMEOUT"
  else "SCRAPE_FAILED"

/-! ## Input guard of `POST /api/diagnosis/naver-place` (`server.js:390-403`) -/

/-- True exactly when the endpoint answers `400 INVALID_URL`: the normalized
input is falsy, or none of the three Naver substrings occurs anywhere in it
(`input.includes(...)`). -/
def naverUrlGuardRejects (url : String) : Prop :=
  let input := normalizeUrl url
  input = "" ∨
    (¬ ("naver.me".data <:+: input.data) ∧ ¬ ("naver.com".data <:+: input.data) ∧
     ¬ ("naver.net".data <:+: input.data))

instance (url : String) : Decidable (naverUrlGuardRejects url) := by
  unfold naverUrlGuardRejects; infer_instance

/-- Claim-side notion of the host of a URL: the authority component after an
optional `http(s)://` scheme, up to the first `/`, `?`, `#` or `:`. -/
def urlHost (s : String) : String :=
  let rest :=
    if "https://".data.isPrefixOf s.data then s.data.drop 8
    else if "http://".data.isPrefixOf s.data then s.data.drop 7
    else s.data
  ⟨rest.takeWhile fun c => !(c == '/' || c == '?' || c == '#' || c == ':')⟩

/-- Claim-side: a recognizable Naver listing host — `naver.me`, `naver.com`,
`naver.net`, or a subdomain of one of them. -/
def isNaverHost (h : String) : Prop :=
  h = "naver.me" ∨ h.data.drop (h.length - 9) = ".naver.me".data ∨
  h = "naver.com" ∨ h.data.drop (h.length - 10) = ".naver.com".data ∨
  h = "naver.net" ∨ h.data.drop (h.length - 10) = ".naver.net".data

instance (h : String) : Decidable (isNaverHost h) := by
  unfold isNaverHost; infer_instance

/-! ## Concrete sample data used by the closed theorems -/

/-- A minimal snapshot (all fields empty or zero). -/
def sampleSnap : Snapshot :=
  { placeName := "S", directionsText := "", storeInfoText := "", photoCount := 0,
    blogReviewCount := 0, receiptReviewCount := 0, menuCount := 0,
    menuWithDescriptionCount := 0, fullText := "" }

/-- A 600-character store-info text. -/
def infoText600 : String := ⟨List.replicate 600 'a'⟩

/-- The snapshot of the spec's scoring scenario: info length 600, 80 receipt
reviews, 20 blog reviews, no menus, 10 photos, empty directions, and a
`fullText` yielding four main keywords. -/
def scenarioSnap : Snapshot :=
  { placeName := "T", directionsText := "", storeInfoText := infoText600, photoCount := 10,
    blogReviewCount := 20, receiptReviewCount := 80, menuCount := 0,
    menuWithDescriptionCount := 0, fullText := "ab cd ef gh" }

/-- Base snapshot for the menu-count monotonicity counterexample. -/
def menuSnapA : Snapshot :=
  { placeName := "", directionsText := "", storeInfoText := "", photoCount := 0,
    blogReviewCount := 0, receiptReviewCount := 0, menuCount := 1,
    menuWithDescriptionCount := 1, fullText := "" }

/-- Snapshot `menuSnapA` with one more (undescribed) menu item. -/
def menuSnapB : Snapshot := { menuSnapA with menuCount := 2 }

/-! ## Helper lemmas -/

theorem takeWhile_append_of_all {p : Char → Bool} {l1 l2 : List Char}
    (h : ∀ a ∈ l1, p a = true) : (l1 ++ l2).takeWhile p = l1 ++ l2.takeWhile p := by
  induction l1 with
  | nil => simp
  | cons a t ih =>
    simp only [List.cons_append, List.takeWhile_cons, h a (List.mem_cons_self a t), if_true,
      ih fun b hb => h b (List.mem_cons_of_mem a hb)]

theorem dropWhile_append_of_all {p : Char → Bool} {l1 l2 : List Char}
    (h : ∀ a ∈ l1, p a = true) : (l1 ++ l2).dropWhile p = l2.dropWhile p := by
  induction l1 with
  | nil => simp
  | cons a t ih =>
    simp only [List.cons_append, List.dropWhile_cons, h a (List.mem_cons_self a t), if_true,
      ih fun b hb => h b (List.mem_cons_of_mem a hb)]

theorem takeWhile_eq_self_of_all {p : Char → Bool} {l : List Char}
    (h : ∀ a ∈ l, p a = true) : l.takeWhile p = l := by
  have h2 := @takeWhile_append_of_all p l [] h
  simpa using h2

theorem dropWhile_eq_nil_of_all {p : Char → Bool} {l : List Char}
    (h : ∀ a ∈ l, p a = true) : l.dropWhile p = [] := by
  have h2 := @dropWhile_append_of_all p l [] h
  simpa using h2

theorem map_id_of_all {f : Char → Char} {l : List Char}
    (h : ∀ a ∈ l, f a = a) : l.map f = l := by
  induction l with
  | nil => rfl
  | cons a t ih =>
    simp only [List.map_cons, h a (List.mem_cons_self a t),
      ih fun b hb => h b (List.mem_cons_of_mem a hb)]

theorem filter_eq_self_of_all {p : Char → Bool} {l : List Char}
    (h : ∀ a ∈ l, p a = true) : l.filter p = l := by
  induction l with
  | nil => rfl
  | cons a t ih =>
    simp only [List.filter_cons, h a (List.mem_cons_self a t), if_true,
      ih fun b hb => h b (List.mem_cons_of_mem a hb)]

theorem string_append_ne_empty (p s : String) (hp : p ≠ "") : p ++ s ≠ "" := by
  intro h
  apply hp
  have hl := congrArg String.length h
  rw [String.length_append] at hl
  have : p.length = 0 := by
    have : ("" : String).length = 0 := rfl
    omega
  cases p with
  | mk data =>
    cases data with
    | nil => rfl
    | cons a t => simp [String.length, List.length] at this

/-- Unfolds `(calculateNaverScore d).score` as an explicit arithmetic expression. -/
theorem calculateNaverScore_score (d : Snapshot) :
    (calculateNaverScore d).score =
      min 15 (d.directionsText.length * 15 / 50) +
      min 25 (d.storeInfoText.length * 25 / 300) +
      min 15 (d.receiptReviewCount * 15 / 100) +
      min 15 (d.blogReviewCount * 15 / 30) +
      ((if 0 < d.menuCount then 10 else 0) +
       (if 0 < d.menuCount ∧ d.menuCount < 2 * d.menuWithDescriptionCount then 10 else 0)) +
      ((if 5 < d.photoCount then 5 else 0) +
       (if 3 ≤ (extractKeywordsV2 d.fullText).main.length then 5 else 0)) := rfl

/-- Projection `(calculateNaverScore d).grade` is the banding of its own score. -/
theorem calculateNaverScore_grade (d : Snapshot) :
    (calculateNaverScore d).grade = gradeOf (calculateNaverScore d).score := rfl

/-- Unfolds `(calculateNaverScoreV1 d).score` as an explicit arithmetic expression. -/
theorem calculateNaverScoreV1_score (d : Snapshot) :
    (calculateNaverScoreV1 d).score =
      (if 300 < d.storeInfoText.length then 25 else 0) +
      (if 50 < d.receiptReviewCount then 15 else 0) +
      (if 10 < d.blogReviewCount then 15 else 0) +
      (if 5 < d.photoCount then 10 else 0) +
      (if 3 ≤ (extractKeywords d.fullText).main.length then 10 else 0) := rfl

/-- Projection `(calculateNaverScoreV1 d).grade` is the banding of its own score. -/
theorem calculateNaverScoreV1_grade (d : Snapshot) :
    (calculateNaverScoreV1 d).grade = gradeOf (calculateNaverScoreV1 d).score := rfl

/-! ## C5 -/

/-- C5: for every total score, the grade bands are exactly `≥90→S`,
`[70,90)→A`, `[50,70)→B`, `[30,50)→C`, `<30→D` (closed lower bounds, no
overlap), and both scoring engines grade by exactly this banding of their
own total score. -/
theorem c5_grade_bands :
    (∀ s : Nat,
      (90 ≤ s → gradeOf s = "S") ∧
      (70 ≤ s → s < 90 → gradeOf s = "A") ∧
      (50 ≤ s → s < 70 → gradeOf s = "B") ∧
      (30 ≤ s → s < 50 → gradeOf s = "C") ∧
      (s < 30 → gradeOf s = "D")) ∧
    (∀ d : Snapshot,
      (calculateNaverScore d).grade = gradeOf (calculateNaverScore d).score ∧
      (calculateNaverScoreV1 d).grade = gradeOf (calculateNaverScoreV1 d).score) := by
  constructor
  · intro s
    refine ⟨?_, ?_, ?_, ?_, ?_⟩ <;> intros <;> unfold gradeOf <;> split_ifs <;>
      first | rfl | omega
  · intro d
    exact ⟨calculateNaverScore_grade d, calculateNaverScoreV1_grade d⟩

/-- C5 witness: the banding at the boundary scores 90 and 89. -/
theorem c5_grade_bands_witness : gradeOf 90 = "S" ∧ gradeOf 89 = "A" :=
  ⟨(c5_grade_bands.1 90).1 (by omega), (c5_grade_bands.1 89).2.1 (by omega) (by omega)⟩

/-! ## C10 -/

/-- C10: the first revision's scoring function never exceeds 75 points
(25+15+15+10+10), so the S band (`score ≥ 90`) is unreachable through it. -/
theorem c10_v1_score_le_75 :
    ∀ d : Snapshot, (calculateNaverScoreV1 d).score ≤ 75 ∧ (calculateNaverScoreV1 d).grade ≠ "S" := by
  intro d
  have hs : (calculateNaverScoreV1 d).score ≤ 75 := by
    rw [calculateNaverScoreV1_score]
    split_ifs <;> omega
  refine ⟨hs, ?_⟩
  rw [calculateNaverScoreV1_grade]
  unfold gradeOf
  split_ifs with h1 h2 h3 h4
  · omega
  all_goals decide

/-! ## C2 -/

set_option maxRecDepth 8000 in
/-- C2 counterexample: on the spec scenario's exact snapshot (info length
600, 80 receipt reviews, 20 blog reviews, no menus, 10 photos, empty
directions, four main keywords) the engine totals 57, not 60, and produces
no recommendations at all — in particular no menu-related suggestion. -/
theorem c2_scenario_counterexample :
    scenarioSnap.storeInfoText.length = 600 ∧ scenarioSnap.receiptReviewCount = 80 ∧
    scenarioSnap.blogReviewCount = 20 ∧ scenarioSnap.menuCount = 0 ∧
    scenarioSnap.photoCount = 10 ∧ scenarioSnap.directionsText = "" ∧
    4 ≤ (calculateNaverScore scenarioSnap).keywords.main.length ∧
    (calculateNaverScore scenarioSnap).score = 57 ∧
    (calculateNaverScore scenarioSnap).score ≠ 60 ∧
    (calculateNaverScore scenarioSnap).recommendations = [] := by decide

set_option maxRecDepth 8000 in
/-- C2 amended: on that snapshot the breakdown is directions 0, info 25,
review 12+10=22, menu 0, photo/keyword 10; the total is 57, the grade `B`,
and the recommendation list is empty (the missing-menu advice appears only
as the menu category's breakdown note, never as a recommendation). -/
theorem c2_scenario_amended :
    (calculateNaverScore scenarioSnap).score = 57 ∧
    (calculateNaverScore scenarioSnap).grade = "B" ∧
    ((calculateNaverScore scenarioSnap).breakdown.map ScoreBreakdownItem.score) =
      [0, 25, 22, 0, 10] ∧
    ((calculateNaverScore scenarioSnap).breakdown.map ScoreBreakdownItem.max) =
      [15, 25, 30, 20, 10] ∧
    (calculateNaverScore scenarioSnap).recommendations = [] := by decide

/-! ## C3 -/

/-- C3 counterexample: the total score is not monotonic in `menuCount` —
with one described menu item, raising the menu count from 1 to 2 drops the
description fraction to 50% and the total score from 20 to 10. -/
theorem c3_menuCount_counterexample :
    menuSnapB = { menuSnapA with menuCount := 2 } ∧
    menuSnapA.menuCount ≤ menuSnapB.menuCount ∧
    (calculateNaverScore menuSnapB).score < (calculateNaverScore menuSnapA).score := by decide

/-- C3 amended: the total score is monotonic non-decreasing in directions
length, info length, receipt reviews, blog reviews, described-menu count and
photo count (each holding everything else fixed) — but not in `menuCount`. -/
theorem c3_monotonic_amended :
    (∀ (d : Snapshot) (x y : String), x.length ≤ y.length →
      (calculateNaverScore { d with directionsText := x }).score ≤
      (calculateNaverScore { d with directionsText := y }).score) ∧
    (∀ (d : Snapshot) (x y : String), x.length ≤ y.length →
      (calculateNaverScore { d with storeInfoText := x }).score ≤
      (calculateNaverScore { d with storeInfoText := y }).score) ∧
    (∀ (d : Snapshot) (x y : Nat), x ≤ y →
      (calculateNaverScore { d with receiptReviewCount := x }).score ≤
      (calculateNaverScore { d with receiptReviewCount := y }).score) ∧
    (∀ (d : Snapshot) (x y : Nat), x ≤ y →
      (calculateNaverScore { d with blogReviewCount := x }).score ≤
      (calculateNaverScore { d with blogReviewCount := y }).score) ∧
    (∀ (d : Snapshot) (x y : Nat), x ≤ y →
      (calculateNaverScore { d with menuWithDescriptionCount := x }).score ≤
      (calculateNaverScore { d with menuWithDescriptionCount := y }).score) ∧
    (∀ (d : Snapshot) (x y : Nat), x ≤ y →
      (calculateNaverScore { d with photoCount := x }).score ≤
      (calculateNaverScore { d with photoCount := y }).score) := by
  refine ⟨?_, ?_, ?_, ?_, ?_, ?_⟩ <;> intro d x y h <;>
    rw [calculateNaverScore_score, calculateNaverScore_score] <;> dsimp only
  · have : min 15 (x.length * 15 / 50) ≤ min 15 (y.length * 15 / 50) :=
      min_le_min le_rfl (Nat.div_le_div_right (Nat.mul_le_mul_right 15 h))
    omega
  · have : min 25 (x.length * 25 / 300) ≤ min 25 (y.length * 25 / 300) :=
      min_le_min le_rfl (Nat.div_le_div_right (Nat.mul_le_mul_right 25 h))
    omega
  · have : min 15 (x * 15 / 100) ≤ min 15 (y * 15 / 100) :=
      min_le_min le_rfl (Nat.div_le_div_right (Nat.mul_le_mul_right 15 h))
    omega
  · have : min 15 (x * 15 / 30) ≤ min 15 (y * 15 / 30) :=
      min_le_min le_rfl (Nat.div_le_div_right (Nat.mul_le_mul_right 15 h))
    omega
  · have : (if 0 < d.menuCount ∧ d.menuCount < 2 * x then 10 else 0) ≤
        (if 0 < d.menuCount ∧ d.menuCount < 2 * y then 10 else 0) := by
      split_ifs <;> omega
    omega
  · have : (if 5 < x then 5 else 0) ≤ (if 5 < y then 5 else 0) := by
      split_ifs <;> omega
    omega

/-- C3 witness: the receipt-review monotonicity instantiated at 10 ≤ 100. -/
theorem c3_monotonic_witness :
    (calculateNaverScore { sampleSnap with receiptReviewCount := 10 }).score ≤
    (calculateNaverScore { sampleSnap with receiptReviewCount := 100 }).score :=
  c3_monotonic_amended.2.2.1 sampleSnap 10 100 (by omega)


/-! ## C7 -/

theorem mem_dedupAux (seen l : List String) (a : String) :
    a ∈ dedupAux seen l ↔ a ∈ l ∧ a ∉ seen := by
  induction l generalizing seen with
  | nil => simp [dedupAux]
  | cons x rest ih =>
    by_cases hx : x ∈ seen
    · simp only [dedupAux, if_pos hx, ih, List.mem_cons]
      constructor
      · rintro ⟨hm, hs⟩; exact ⟨Or.inr hm, hs⟩
      · rintro ⟨hm | hm, hs⟩
        · exact absurd (hm ▸ hx) hs
        · exact ⟨hm, hs⟩
    · simp only [dedupAux, if_neg hx, List.mem_cons, ih]
      constructor
      · rintro (rfl | ⟨hm, hs⟩)
        · exact ⟨Or.inl rfl, hx⟩
        · exact ⟨Or.inr hm, fun hc => hs (Or.inr hc)⟩
      · rintro ⟨hm | hm, hs⟩
        · exact Or.inl hm
        · by_cases hax : a = x
          · exact Or.inl hax
          · exact Or.inr ⟨hm, fun hc => hc.elim hax hs⟩

theorem mem_dedupFirst (l : List String) (a : String) : a ∈ dedupFirst l ↔ a ∈ l := by
  simp [dedupFirst, mem_dedupAux]

theorem nodup_dedupAux (seen l : List String) : (dedupAux seen l).Nodup := by
  induction l generalizing seen with
  | nil => simp [dedupAux]
  | cons x rest ih =>
    by_cases hx : x ∈ seen
    · simpa [dedupAux, if_pos hx] using ih seen
    · rw [dedupAux, if_neg hx]
      refine List.nodup_cons.mpr ⟨?_, ih (x :: seen)⟩
      intro hc
      exact ((mem_dedupAux (x :: seen) rest x).mp hc).2 (List.mem_cons_self x seen)

theorem nodup_dedupFirst (l : List String) : (dedupFirst l).Nodup :=
  nodup_dedupAux [] l

theorem dedupFirst_cons (x : String) (l : List String) :
    dedupFirst (x :: l) = x :: dedupAux [x] l := by
  simp [dedupFirst, dedupAux]

theorem dedupFirst_pair {x y : String} (h : x ≠ y) : dedupFirst [x, y] = [x, y] := by
  have h2 : ¬ (y = x) := fun hc => h hc.symm
  simp [dedupFirst, dedupAux, h2]

/-- C7 counterexample: a non-null identifier that is the empty string yields
an empty candidate list, not a non-empty one. -/
theorem c7_empty_id_counterexample :
    buildMobileScrapeCandidates (some "") none = [] ∧ some "" ≠ (none : Option String) := by
  decide

/-- C7 amended: a null identifier (or one that trims to the empty string)
yields the empty list; any other identifier yields a non-empty,
duplicate-free list headed by the type-hinted URL when a non-empty type hint
exists, always containing the generic `/place/` and default `/restaurant/`
URLs, and equal to exactly `[place, restaurant]` when no usable hint exists. -/
theorem c7_candidates_amended : ∀ placeId typeHint : Option String,
    (placeId = none → buildMobileScrapeCandidates placeId typeHint = []) ∧
    (trimStr (placeId.getD "") = "" → buildMobileScrapeCandidates placeId typeHint = []) ∧
    (trimStr (placeId.getD "") ≠ "" →
      buildMobileScrapeCandidates placeId typeHint ≠ [] ∧
      (buildMobileScrapeCandidates placeId typeHint).Nodup ∧
      ("https://m.place.naver.com/place/" ++ trimStr (placeId.getD "")) ∈
        buildMobileScrapeCandidates placeId typeHint ∧
      ("https://m.place.naver.com/restaurant/" ++ trimStr (placeId.getD "")) ∈
        buildMobileScrapeCandidates placeId typeHint ∧
      (∀ t, typeHint = some t → t ≠ "" →
        (buildMobileScrapeCandidates placeId typeHint).head? =
          some ("https://m.place.naver.com/" ++ t ++ "/" ++ trimStr (placeId.getD ""))) ∧
      ((typeHint = none ∨ typeHint = some "") →
        buildMobileScrapeCandidates placeId typeHint =
          ["https://m.place.naver.com/place/" ++ trimStr (placeId.getD ""),
           "https://m.place.naver.com/restaurant/" ++ trimStr (placeId.getD "")])) := by
  intro placeId typeHint
  refine ⟨?_, ?_, ?_⟩
  · rintro rfl; rfl
  · intro h; simp [buildMobileScrapeCandidates, h]
  · intro h
    have hne : ("https://m.place.naver.com/place/" ++ trimStr (placeId.getD "")) ≠
        ("https://m.place.naver.com/restaurant/" ++ trimStr (placeId.getD "")) := by
      intro hc
      have := congrArg String.length hc
      rw [String.length_append, String.length_append] at this
      have h32 : ("https://m.place.naver.com/place/" : String).length = 32 := by decide
      have h37 : ("https://m.place.naver.com/restaurant/" : String).length = 37 := by decide
      omega
    rcases typeHint with _ | t
    · have hb : buildMobileScrapeCandidates placeId none =
          dedupFirst ["https://m.place.naver.com/place/" ++ trimStr (placeId.getD ""),
            "https://m.place.naver.com/restaurant/" ++ trimStr (placeId.getD "")] := by
        unfold buildMobileScrapeCandidates
        rw [if_neg h]
        rfl
      refine ⟨?_, ?_, ?_, ?_, ?_, ?_⟩
      · rw [hb, dedupFirst_cons]; simp
      · rw [hb]; exact nodup_dedupFirst _
      · rw [hb, mem_dedupFirst]; simp
      · rw [hb, mem_dedupFirst]; simp
      · intro t ht; cases ht
      · intro _; rw [hb, dedupFirst_pair hne]
    · by_cases ht0 : t = ""
      · subst ht0
        have hb : buildMobileScrapeCandidates placeId (some "") =
            dedupFirst ["https://m.place.naver.com/place/" ++ trimStr (placeId.getD ""),
              "https://m.place.naver.com/restaurant/" ++ trimStr (placeId.getD "")] := by
          unfold buildMobileScrapeCandidates
          rw [if_neg h]
          dsimp only
          rw [if_pos rfl]
          rfl
        refine ⟨?_, ?_, ?_, ?_, ?_, ?_⟩
        · rw [hb, dedupFirst_cons]; simp
        · rw [hb]; exact nodup_dedupFirst _
        · rw [hb, mem_dedupFirst]; simp
        · rw [hb, mem_dedupFirst]; simp
        · intro t' ht' h0; cases ht'; exact absurd rfl h0
        · intro _; rw [hb, dedupFirst_pair hne]
      · have hb : buildMobileScrapeCandidates placeId (some t) =
            dedupFirst ["https://m.place.naver.com/" ++ t ++ "/" ++ trimStr (placeId.getD ""),
              "https://m.place.naver.com/place/" ++ trimStr (placeId.getD ""),
              "https://m.place.naver.com/restaurant/" ++ trimStr (placeId.getD "")] := by
          unfold buildMobileScrapeCandidates
          rw [if_neg h]
          dsimp only
          rw [if_neg ht0]
          rfl
        refine ⟨?_, ?_, ?_, ?_, ?_, ?_⟩
        · rw [hb, dedupFirst_cons]; simp
        · rw [hb]; exact nodup_dedupFirst _
        · rw [hb, mem_dedupFirst]; simp
        · rw [hb, mem_dedupFirst]; simp
        · intro t' ht' _
          cases ht'
          rw [hb, dedupFirst_cons]
          rfl
        · rintro (h0 | h0)
          · cases h0
          · cases h0
            exact absurd rfl ht0


/-- C7 witness: at identifier `"123"` with hint `"cafe"` the list is headed
by the hinted URL, is duplicate-free, and contains both fallback URLs. -/
theorem c7_candidates_witness :
    (buildMobileScrapeCandidates (some "123") (some "cafe")).head? =
      some "https://m.place.naver.com/cafe/123" ∧
    (buildMobileScrapeCandidates (some "123") (some "cafe")).Nodup ∧
    "https://m.place.naver.com/place/123" ∈ buildMobileScrapeCandidates (some "123") (some "cafe") := by
  have h := (c7_candidates_amended (some "123") (some "cafe")).2.2 (by decide)
  refine ⟨?_, h.2.1, ?_⟩
  · have := h.2.2.2.2.1 "cafe" rfl (by decide)
    simpa using this
  · simpa using h.2.2.1

/-! ## C1 -/

/-- C1 counterexample: the first candidate's 55-second race times out — the
overall deadline has fully elapsed mid-way, with a candidate still untried —
yet the loop proceeds to the second candidate and the request succeeds
instead of terminating with the TIMEOUT classification. -/
theorem c1_deadline_counterexample :
    withTimeout 55000 ⟨60000, AttemptResult.err "NAV_FAIL"⟩ = AttemptResult.err "TIMEOUT_55000" ∧
    runCandidates [⟨60000, AttemptResult.err "NAV_FAIL"⟩, ⟨1000, AttemptResult.ok sampleSnap⟩]
      none = Except.ok sampleSnap :=
  ⟨by decide, rfl⟩

/-- C1 amended: each candidate is raced against its own fresh 55000 ms
timer (the budget is per-candidate, not shared); a timed-out or failed
attempt never terminates the loop — the first candidate that settles
successfully within its own window wins; only when every candidate has
failed does the loop raise the last error, and the endpoint classifies that
error as `TIMEOUT` exactly when it carries a timeout marker. -/
theorem c1_orchestrator_amended :
    (∀ (pre rest : List Attempt) (a : Attempt) (s : Snapshot) (lastErr : Option String),
      (∀ b ∈ pre, ∃ e, withTimeout 55000 b = AttemptResult.err e) →
      withTimeout 55000 a = AttemptResult.ok s →
      runCandidates (pre ++ a :: rest) lastErr = Except.ok s) ∧
    (∀ (pre : List Attempt) (a : Attempt) (e : String) (lastErr : Option String),
      (∀ b ∈ pre, ∃ e2, withTimeout 55000 b = AttemptResult.err e2) →
      withTimeout 55000 a = AttemptResult.err e →
      runCandidates (pre ++ [a]) lastErr = Except.error e) ∧
    classifyFailure "TIMEOUT_55000" = "TIMEOUT" ∧
    classifyFailure "SCRAPE_FAILED: all candidates failed" = "SCRAPE_FAILED" := by
  refine ⟨?_, ?_, by decide, by decide⟩
  · intro pre
    induction pre with
    | nil =>
      intro rest a s lastErr _ ha
      simp [runCandidates, ha]
    | cons b pre' ih =>
      intro rest a s lastErr hpre ha
      obtain ⟨e0, he0⟩ := hpre b (List.mem_cons_self b pre')
      have hstep : runCandidates ((b :: pre') ++ a :: rest) lastErr =
          runCandidates (pre' ++ a :: rest) (some e0) := by
        simp [runCandidates, he0]
      rw [hstep]
      exact ih rest a s (some e0) (fun x hx => hpre x (List.mem_cons_of_mem b hx)) ha
  · intro pre
    induction pre with
    | nil =>
      intro a e lastErr _ ha
      simp [runCandidates, ha]
    | cons b pre' ih =>
      intro a e lastErr hpre ha
      obtain ⟨e0, he0⟩ := hpre b (List.mem_cons_self b pre')
      have hstep : runCandidates ((b :: pre') ++ [a]) lastErr =
          runCandidates (pre' ++ [a]) (some e0) := by
        simp [runCandidates, he0]
      rw [hstep]
      exact ih a e (some e0) (fun x hx => hpre x (List.mem_cons_of_mem b hx)) ha

/-- C1 witness: a failed first attempt is skipped and the second succeeds;
two failing attempts produce the last attempt's timeout error. -/
theorem c1_orchestrator_witness :
    runCandidates [⟨10, AttemptResult.err "ERR_A"⟩, ⟨5, AttemptResult.ok sampleSnap⟩,
        ⟨7, AttemptResult.err "ERR_B"⟩] none = Except.ok sampleSnap ∧
    runCandidates [⟨10, AttemptResult.err "ERR_A"⟩, ⟨99000, AttemptResult.err "x"⟩] none =
      Except.error "TIMEOUT_55000" := by
  constructor
  · exact c1_orchestrator_amended.1 [⟨10, AttemptResult.err "ERR_A"⟩]
      [⟨7, AttemptResult.err "ERR_B"⟩] ⟨5, AttemptResult.ok sampleSnap⟩ sampleSnap none
      (by
        intro b hb
        rw [List.mem_singleton] at hb
        subst hb
        exact ⟨"ERR_A", rfl⟩)
      rfl
  · exact c1_orchestrator_amended.2.1 [⟨10, AttemptResult.err "ERR_A"⟩]
      ⟨99000, AttemptResult.err "x"⟩ "TIMEOUT_55000" none
      (by
        intro b hb
        rw [List.mem_singleton] at hb
        subst hb
        exact ⟨"ERR_A", rfl⟩)
      (by decide)

/-! ## C6 -/

theorem resolveOkBranch_canonicalUrl_ne (inputUrl normalized : String) (resp : HttpResp)
    (h : normalized ≠ "") : (resolveOkBranch inputUrl normalized resp).canonicalUrl ≠ "" := by
  have hfinal : (match resp.responseUrl with
      | some u => if u = "" then normalized else u
      | none => normalized) ≠ "" := by
    rcases resp.responseUrl with _ | u
    · exact h
    · dsimp only
      split_ifs with hu
      · exact h
      · exact hu
  unfold resolveOkBranch
  dsimp only
  split
  · exact string_append_ne_empty _ _ (by decide)
  · exact hfinal

/-- C6 amended: the resolver is a total function (never throws); when the
direct extraction fails and the outbound GET errors, the error is swallowed
and the result carries a null identifier with `canonicalUrl` equal to the
normalized input; and `canonicalUrl` is non-empty whenever the normalized
input is non-empty (the empty input — rejected by the endpoint before the
resolver runs — is the only input producing an empty `canonicalUrl`). -/
theorem c6_resolver_amended : ∀ (input : String) (net : Except String HttpResp),
    (∀ e, net = Except.error e → extractPlaceIdFromUrl (normalizeUrl input) = none →
      resolveNaverPlaceUrl input net =
        { inputUrl := input, finalUrl := normalizeUrl input, placeId := none,
          typeHint := none, canonicalUrl := normalizeUrl input }) ∧
    (normalizeUrl input ≠ "" → (resolveNaverPlaceUrl input net).canonicalUrl ≠ "") := by
  intro input net
  constructor
  · intro e he hid
    subst he
    simp only [resolveNaverPlaceUrl]
    rw [hid]
  · intro hne
    simp only [resolveNaverPlaceUrl]
    cases hid : extractPlaceIdFromUrl (normalizeUrl input) with
    | some id =>
      dsimp only
      exact string_append_ne_empty "https://map.naver.com/p/entry/place/" id (by decide)
    | none =>
      cases net with
      | error e => dsimp only; exact hne
      | ok resp =>
        dsimp only
        exact resolveOkBranch_canonicalUrl_ne input (normalizeUrl input) resp hne

/-- C6 counterexample: on the empty input (unreachable through the endpoint,
which rejects it first) a network error yields `canonicalUrl = ""` — the
field is set but empty, refuting the unconditional non-emptiness. -/
theorem c6_empty_canonical_counterexample :
    (resolveNaverPlaceUrl "" (Except.error "ECONNREFUSED")).canonicalUrl = "" ∧
    (resolveNaverPlaceUrl "" (Except.error "ECONNREFUSED")).placeId = none := by
  decide

/-- C6 witness: a short link with a network failure resolves to the
swallowed-error record, with a non-empty canonical URL. -/
theorem c6_resolver_witness :
    resolveNaverPlaceUrl "https://naver.me/xyz" (Except.error "refused") =
      { inputUrl := "https://naver.me/xyz", finalUrl := "https://naver.me/xyz",
        placeId := none, typeHint := none, canonicalUrl := "https://naver.me/xyz" } ∧
    (resolveNaverPlaceUrl "https://naver.me/xyz" (Except.error "refused")).canonicalUrl ≠ "" := by
  have h := c6_resolver_amended "https://naver.me/xyz" (Except.error "refused")
  refine ⟨?_, h.2 (by decide)⟩
  have h1 := h.1 "refused" rfl (by decide)
  rw [h1]
  decide

/-! ## C8 -/

theorem urlHost_data_isInfix (s : String) : (urlHost s).data <:+: s.data := by
  unfold urlHost
  dsimp only
  split_ifs
  · have hp : List.takeWhile (fun c => !(c == '/' || c == '?' || c == '#' || c == ':'))
        (s.data.drop 8) <+: s.data.drop 8 :=
      List.takeWhile_prefix _
    exact hp.isInfix.trans (List.drop_suffix 8 s.data).isInfix
  · have hp : List.takeWhile (fun c => !(c == '/' || c == '?' || c == '#' || c == ':'))
        (s.data.drop 7) <+: s.data.drop 7 :=
      List.takeWhile_prefix _
    exact hp.isInfix.trans (List.drop_suffix 7 s.data).isInfix
  · have hp : List.takeWhile (fun c => !(c == '/' || c == '?' || c == '#' || c == ':'))
        s.data <+: s.data :=
      List.takeWhile_prefix _
    exact hp.isInfix

theorem isNaverHost_substring {s : String} (h : isNaverHost (urlHost s)) :
    ("naver.me".data <:+: s.data) ∨ ("naver.com".data <:+: s.data) ∨
    ("naver.net".data <:+: s.data) := by
  have hi := urlHost_data_isInfix s
  rcases h with h | h | h | h | h | h
  · exact Or.inl (by rw [h] at hi; exact hi)
  · refine Or.inl ?_
    have h1 : "naver.me".data <:+ List.drop ((urlHost s).length - 9) (urlHost s).data := by
      rw [h]
      decide
    have hsuf : "naver.me".data <:+ (urlHost s).data := h1.trans (List.drop_suffix _ _)
    exact hsuf.isInfix.trans hi
  · exact Or.inr (Or.inl (by rw [h] at hi; exact hi))
  · refine Or.inr (Or.inl ?_)
    have h1 : "naver.com".data <:+ List.drop ((urlHost s).length - 10) (urlHost s).data := by
      rw [h]
      decide
    have hsuf : "naver.com".data <:+ (urlHost s).data := h1.trans (List.drop_suffix _ _)
    exact hsuf.isInfix.trans hi
  · exact Or.inr (Or.inr (by rw [h] at hi; exact hi))
  · refine Or.inr (Or.inr ?_)
    have h1 : "naver.net".data <:+ List.drop ((urlHost s).length - 10) (urlHost s).data := by
      rw [h]
      decide
    have hsuf : "naver.net".data <:+ (urlHost s).data := h1.trans (List.drop_suffix _ _)
    exact hsuf.isInfix.trans hi

/-- C8 counterexample: `https://evil.com/?q=naver.com` has a non-Naver host,
so the claim demands a 400 INVALID_URL rejection, but the guard checks the
substrings anywhere in the URL and accepts it. -/
theorem c8_substring_counterexample :
    ¬ naverUrlGuardRejects "https://evil.com/?q=naver.com" ∧
    ¬ isNaverHost (urlHost (normalizeUrl "https://evil.com/?q=naver.com")) ∧
    normalizeUrl "https://evil.com/?q=naver.com" ≠ "" := by decide

/-- C8 amended: the endpoint rejects with 400 INVALID_URL exactly when the
normalized input is empty or contains none of the substrings `naver.me`,
`naver.com`, `naver.net` anywhere (a substring check, not a host check); in
particular every URL whose host really is a Naver host passes the guard. -/
theorem c8_guard_amended : ∀ url : String,
    (naverUrlGuardRejects url ↔
      (normalizeUrl url = "" ∨
        (¬ ("naver.me".data <:+: (normalizeUrl url).data) ∧
         ¬ ("naver.com".data <:+: (normalizeUrl url).data) ∧
         ¬ ("naver.net".data <:+: (normalizeUrl url).data)))) ∧
    (isNaverHost (urlHost (normalizeUrl url)) → ¬ naverUrlGuardRejects url) := by
  intro url
  refine ⟨Iff.rfl, ?_⟩
  intro hn hrej
  rcases hrej with heq | ⟨h1, h2, h3⟩
  · rw [heq] at hn
    revert hn
    decide
  · rcases isNaverHost_substring hn with hc | hc | hc
    · exact h1 hc
    · exact h2 hc
    · exact h3 hc

/-- C8 witness: a genuine Naver-host URL passes the guard. -/
theorem c8_guard_witness :
    isNaverHost (urlHost (normalizeUrl "map.naver.com/p/entry/place/123")) ∧
    ¬ naverUrlGuardRejects "map.naver.com/p/entry/place/123" :=
  ⟨by decide, (c8_guard_amended "map.naver.com/p/entry/place/123").2 (by decide)⟩

/-! ## C9 -/

theorem map_fst_bump (acc : List (String × Nat)) (t : String) :
    (bump acc t).map Prod.fst =
      if t ∈ acc.map Prod.fst then acc.map Prod.fst else acc.map Prod.fst ++ [t] := by
  unfold bump
  split_ifs with h
  · rw [List.map_map]
    refine List.map_congr_left ?_
    intro p _
    by_cases hp : p.1 = t <;> simp [hp]
  · simp

theorem mem_foldl_bump (l : List String) (acc : List (String × Nat)) (p : String × Nat)
    (hp : p ∈ l.foldl bump acc) : p.1 ∈ acc.map Prod.fst ∨ p.1 ∈ l := by
  induction l generalizing acc with
  | nil =>
    simp only [List.foldl_nil] at hp
    exact Or.inl (List.mem_map_of_mem Prod.fst hp)
  | cons t rest ih =>
    rcases ih (bump acc t) hp with hm | hm
    · rw [map_fst_bump] at hm
      split_ifs at hm with hmem
      · exact Or.inl hm
      · rcases List.mem_append.mp hm with hm | hm
        · exact Or.inl hm
        · rw [List.mem_singleton] at hm
          exact Or.inr (hm ▸ List.mem_cons_self t rest)
    · exact Or.inr (List.mem_cons_of_mem t hm)

theorem mem_countTokens {ts : List String} {p : String × Nat} (hp : p ∈ countTokens ts) :
    p.1 ∈ ts := by
  rcases mem_foldl_bump ts [] p hp with hm | hm
  · simp at hm
  · exact hm

theorem mem_insertDesc (p q : String × Nat) (l : List (String × Nat)) :
    p ∈ insertDesc q l ↔ p = q ∨ p ∈ l := by
  induction l with
  | nil => simp [insertDesc]
  | cons x rest ih =>
    unfold insertDesc
    split_ifs <;> simp [ih] <;> tauto

theorem mem_foldl_insertDesc (l : List (String × Nat)) (acc : List (String × Nat))
    (p : String × Nat) :
    p ∈ l.foldl (fun acc q => insertDesc q acc) acc ↔ p ∈ acc ∨ p ∈ l := by
  induction l generalizing acc with
  | nil => simp
  | cons x rest ih =>
    rw [List.foldl_cons, ih (insertDesc x acc), mem_insertDesc]
    simp only [List.mem_cons]
    tauto

theorem mem_sortByCountDesc (l : List (String × Nat)) (p : String × Nat) :
    p ∈ sortByCountDesc l ↔ p ∈ l := by
  unfold sortByCountDesc
  rw [mem_foldl_insertDesc]
  simp

theorem extractKeywordsWith_props (stop : List String) (text : String) :
    (extractKeywordsWith stop text).main.length ≤ 5 ∧
    (extractKeywordsWith stop text).sub.length ≤ 7 ∧
    (∀ w, w ∈ (extractKeywordsWith stop text).main ∨ w ∈ (extractKeywordsWith stop text).sub →
      1 < w.length ∧ w ∉ stop) := by
  unfold extractKeywordsWith
  by_cases h : text = ""
  · simp [h]
  · rw [if_neg h]
    dsimp only
    refine ⟨?_, ?_, ?_⟩
    · rw [List.length_map]
      exact List.length_take_le 5 _
    · rw [List.length_map]
      exact List.length_take_le 7 _
    · intro w hw
      have hgood : ∃ p : String × Nat, p.1 = w ∧
          p ∈ countTokens ((tokenize (sanitizeText text)).filter (keywordFilter stop)) := by
        rcases hw with hw | hw
        · obtain ⟨p, hp, hpe⟩ := List.mem_map.mp hw
          exact ⟨p, hpe, (mem_sortByCountDesc _ p).mp (List.mem_of_mem_take hp)⟩
        · obtain ⟨p, hp, hpe⟩ := List.mem_map.mp hw
          exact ⟨p, hpe,
            (mem_sortByCountDesc _ p).mp (List.mem_of_mem_drop (List.mem_of_mem_take hp))⟩
      obtain ⟨p, hpe, hpc⟩ := hgood
      have hmem : p.1 ∈ (tokenize (sanitizeText text)).filter (keywordFilter stop) :=
        mem_countTokens hpc
      have hf : keywordFilter stop p.1 = true := List.of_mem_filter hmem
      rw [hpe] at hf
      exact of_decide_eq_true hf

/-- C9: for every input text, both revisions' keyword extractors return at
most 5 main and 7 sub keywords, and no stopword of the respective fixed
stopword list — and no token of length ≤ 1 — ever appears in either list. -/
theorem c9_keyword_bounds : ∀ text : String,
    ((extractKeywords text).main.length ≤ 5 ∧ (extractKeywords text).sub.length ≤ 7 ∧
      (∀ w, w ∈ (extractKeywords text).main ∨ w ∈ (extractKeywords text).sub →
        1 < w.length ∧ w ∉ stopWordsV1)) ∧
    ((extractKeywordsV2 text).main.length ≤ 5 ∧ (extractKeywordsV2 text).sub.length ≤ 7 ∧
      (∀ w, w ∈ (extractKeywordsV2 text).main ∨ w ∈ (extractKeywordsV2 text).sub →
        1 < w.length ∧ w ∉ stopWordsV2)) :=
  fun text =>
    ⟨extractKeywordsWith_props stopWordsV1 text, extractKeywordsWith_props stopWordsV2 text⟩

/-- C9 witness: on a text containing the stopword `및`, the extracted main
keyword `가나` has length > 1 and is not a stopword. -/
theorem c9_keyword_bounds_witness :
    1 < ("가나" : String).length ∧ ("가나" : String) ∉ stopWordsV1 :=
  (c9_keyword_bounds "및 가나 가나").1.2.2 "가나" (Or.inl (by decide))

/-! ## C4 -/

theorem filter_eq_nil_of_all {p : Char → Bool} {l : List Char}
    (h : ∀ a ∈ l, p a = false) : l.filter p = [] := by
  induction l with
  | nil => rfl
  | cons a t ih =>
    simp only [List.filter_cons, h a (List.mem_cons_self a t), Bool.false_eq_true, if_false]
    exact ih fun b hb => h b (List.mem_cons_of_mem a hb)

theorem mk_ne_empty_of_ne_nil (l : List Char) (h : l ≠ []) : (⟨l⟩ : String) ≠ "" :=
  fun hc => h (congrArg String.data hc)

theorem digit_keep (c : Char) (h : c ∈ digitChars) :
    (!(c == ',') && !c.isWhitespace) = true := by fin_cases h <;> decide

theorem digit_toLower (c : Char) (h : c ∈ digitChars) : c.toLower = c := by
  fin_cases h <;> decide

theorem digit_isDigit (c : Char) (h : c ∈ digitChars) : c.isDigit = true := by
  fin_cases h <;> decide

theorem digit_notKmb (c : Char) (h : c ∈ digitChars) :
    (!(c == 'k') && !(c == 'm') && !(c == 'b')) = true := by fin_cases h <;> decide

theorem digit_ne_minus (c : Char) (h : c ∈ digitChars) : c ≠ '-' := by
  fin_cases h <;> decide

theorem digit_ne_plus (c : Char) (h : c ∈ digitChars) : c ≠ '+' := by
  fin_cases h <;> decide

theorem cleanStr_body (body sufL : List Char)
    (hb : ∀ c ∈ body, (!(c == ',') && !c.isWhitespace) = true ∧ c.toLower = c)
    (hs : ∀ c ∈ sufL, (!(c == ',') && !c.isWhitespace) = true) :
    cleanStr ⟨body ++ sufL⟩ = body ++ sufL.map Char.toLower := by
  unfold cleanStr
  show ((body ++ sufL).filter _).map Char.toLower = _
  rw [List.filter_append, filter_eq_self_of_all (fun c hc => (hb c hc).1),
    filter_eq_self_of_all hs, List.map_append, map_id_of_all (fun c hc => (hb c hc).2)]

theorem stripKmb_body (body sufL : List Char)
    (hb : ∀ c ∈ body, (!(c == 'k') && !(c == 'm') && !(c == 'b')) = true)
    (hs : ∀ c ∈ sufL, (!(c == 'k') && !(c == 'm') && !(c == 'b')) = false) :
    stripKmb (body ++ sufL) = body := by
  unfold stripKmb
  rw [List.filter_append, filter_eq_self_of_all hb, filter_eq_nil_of_all hs, List.append_nil]

theorem igMultiplier_body (body : List Char) (suf : Option Char)
    (hkb : 'k' ∉ body) (hmb : 'm' ∉ body) (hbb : 'b' ∉ body)
    (hsuf : suf = none ∨ suf = some 'k' ∨ suf = some 'K' ∨ suf = some 'm' ∨ suf = some 'M' ∨
      suf = some 'b' ∨ suf = some 'B') :
    igMultiplier (body ++ suf.toList.map Char.toLower) = suffixMult suf := by
  rcases hsuf with rfl | rfl | rfl | rfl | rfl | rfl | rfl <;>
    simp +decide [igMultiplier, suffixMult, hkb, hmb, hbb]

theorem parseFloatQ_digits_int (ds : List Char) (hds : ∀ c ∈ ds, c ∈ digitChars)
    (hne : ds ≠ []) : parseFloatQ ⟨ds⟩ = some (digitsToNat ds : ℚ) := by
  obtain ⟨d, dt, rfl⟩ := List.exists_cons_of_ne_nil hne
  have hd : d ∈ digitChars := hds d (List.mem_cons_self _ _)
  have hdig : ∀ c ∈ d :: dt, Char.isDigit c = true := fun c hc => digit_isDigit c (hds c hc)
  have h1 : (d :: dt).takeWhile Char.isDigit = d :: dt := takeWhile_eq_self_of_all hdig
  have h2 : (d :: dt).dropWhile Char.isDigit = [] := dropWhile_eq_nil_of_all hdig
  unfold parseFloatQ
  dsimp only
  rw [if_neg (digit_ne_minus d hd), if_neg (digit_ne_plus d hd)]
  simp [parseNum, parseMantissa, h1, h2, expMult]

theorem parseFloatQ_digits_frac (ds es : List Char) (hds : ∀ c ∈ ds, c ∈ digitChars)
    (hes : ∀ c ∈ es, c ∈ digitChars) (hne : ds ≠ []) :
    parseFloatQ ⟨ds ++ '.' :: es⟩ =
      some ((digitsToNat ds : ℚ) + (digitsToNat es : ℚ) / (10 : ℚ) ^ es.length) := by
  obtain ⟨d, dt, rfl⟩ := List.exists_cons_of_ne_nil hne
  have hd : d ∈ digitChars := hds d (List.mem_cons_self _ _)
  have hdig : ∀ c ∈ d :: dt, Char.isDigit c = true := fun c hc => digit_isDigit c (hds c hc)
  have hdiges : ∀ c ∈ es, Char.isDigit c = true := fun c hc => digit_isDigit c (hes c hc)
  have h1 : ((d :: dt) ++ '.' :: es).takeWhile Char.isDigit = d :: dt := by
    rw [takeWhile_append_of_all hdig]
    simp
  have h2 : ((d :: dt) ++ '.' :: es).dropWhile Char.isDigit = '.' :: es := by
    rw [dropWhile_append_of_all hdig]
    simp
  have h3 : es.takeWhile Char.isDigit = es := takeWhile_eq_self_of_all hdiges
  have h4 : es.dropWhile Char.isDigit = [] := dropWhile_eq_nil_of_all hdiges
  rw [List.cons_append] at h1 h2
  rw [List.cons_append]
  unfold parseFloatQ
  dsimp only
  rw [if_neg (digit_ne_minus d hd), if_neg (digit_ne_plus d hd)]
  simp [parseNum, parseMantissa, h1, h2, h3, h4, expMult]

theorem parseIgNumber_int_shape : ∀ (ds : List Char) (suf : Option Char),
    (∀ c ∈ ds, c ∈ digitChars) → ds ≠ [] →
    (suf = none ∨ suf = some 'k' ∨ suf = some 'K' ∨ suf = some 'm' ∨ suf = some 'M' ∨
      suf = some 'b' ∨ suf = some 'B') →
    parseIgNumber ⟨ds ++ suf.toList⟩ = ((digitsToNat ds * suffixMult suf : Nat) : Int) := by
  intro ds suf hds hne hsuf
  have hkeep : ∀ c ∈ ds, (!(c == ',') && !c.isWhitespace) = true ∧ c.toLower = c :=
    fun c hc => ⟨digit_keep c (hds c hc), digit_toLower c (hds c hc)⟩
  have hsufkeep : ∀ c ∈ suf.toList, (!(c == ',') && !c.isWhitespace) = true := by
    rcases hsuf with rfl | rfl | rfl | rfl | rfl | rfl | rfl <;> decide
  have hclean : cleanStr ⟨ds ++ suf.toList⟩ = ds ++ suf.toList.map Char.toLower :=
    cleanStr_body ds suf.toList hkeep hsufkeep
  have hstripsuf : ∀ c ∈ suf.toList.map Char.toLower,
      (!(c == 'k') && !(c == 'm') && !(c == 'b')) = false := by
    rcases hsuf with rfl | rfl | rfl | rfl | rfl | rfl | rfl <;> decide
  have hstrip : stripKmb (ds ++ suf.toList.map Char.toLower) = ds :=
    stripKmb_body ds _ (fun c hc => digit_notKmb c (hds c hc)) hstripsuf
  have hkb : 'k' ∉ ds := fun hc => by have h := hds 'k' hc; revert h; decide
  have hmb : 'm' ∉ ds := fun hc => by have h := hds 'm' hc; revert h; decide
  have hbb : 'b' ∉ ds := fun hc => by have h := hds 'b' hc; revert h; decide
  have hmult : igMultiplier (ds ++ suf.toList.map Char.toLower) = suffixMult suf :=
    igMultiplier_body ds suf hkb hmb hbb hsuf
  have hnil : (⟨ds ++ suf.toList⟩ : String) ≠ "" :=
    mk_ne_empty_of_ne_nil _ fun hc => hne (List.append_eq_nil.mp hc).1
  simp only [parseIgNumber, if_neg hnil, hclean, hstrip, hmult,
    parseFloatQ_digits_int ds hds hne]
  rw [← Nat.cast_mul, Int.floor_natCast]

theorem parseIgNumber_frac_shape : ∀ (ds es : List Char) (suf : Option Char),
    (∀ c ∈ ds, c ∈ digitChars) → (∀ c ∈ es, c ∈ digitChars) → ds ≠ [] →
    (suf = none ∨ suf = some 'k' ∨ suf = some 'K' ∨ suf = some 'm' ∨ suf = some 'M' ∨
      suf = some 'b' ∨ suf = some 'B') →
    parseIgNumber ⟨(ds ++ '.' :: es) ++ suf.toList⟩ =
      ⌊((digitsToNat ds : ℚ) + (digitsToNat es : ℚ) / (10 : ℚ) ^ es.length) *
        (suffixMult suf : ℚ)⌋ := by
  intro ds es suf hds hes hne hsuf
  have hbodyMem : ∀ c ∈ ds ++ '.' :: es, c ∈ digitChars ∨ c = '.' := by
    intro c hc
    rcases List.mem_append.mp hc with h | h
    · exact Or.inl (hds c h)
    · rcases List.mem_cons.mp h with h | h
      · exact Or.inr h
      · exact Or.inl (hes c h)
  have hkeep : ∀ c ∈ ds ++ '.' :: es,
      (!(c == ',') && !c.isWhitespace) = true ∧ c.toLower = c := by
    intro c hc
    rcases hbodyMem c hc with h | rfl
    · exact ⟨digit_keep c h, digit_toLower c h⟩
    · exact ⟨by decide, by decide⟩
  have hsufkeep : ∀ c ∈ suf.toList, (!(c == ',') && !c.isWhitespace) = true := by
    rcases hsuf with rfl | rfl | rfl | rfl | rfl | rfl | rfl <;> decide
  have hclean : cleanStr ⟨(ds ++ '.' :: es) ++ suf.toList⟩ =
      (ds ++ '.' :: es) ++ suf.toList.map Char.toLower :=
    cleanStr_body _ suf.toList hkeep hsufkeep
  have hnotkmb : ∀ c ∈ ds ++ '.' :: es, (!(c == 'k') && !(c == 'm') && !(c == 'b')) = true := by
    intro c hc
    rcases hbodyMem c hc with h | rfl
    · exact digit_notKmb c h
    · decide
  have hstripsuf : ∀ c ∈ suf.toList.map Char.toLower,
      (!(c == 'k') && !(c == 'm') && !(c == 'b')) = false := by
    rcases hsuf with rfl | rfl | rfl | rfl | rfl | rfl | rfl <;> decide
  have hstrip : stripKmb ((ds ++ '.' :: es) ++ suf.toList.map Char.toLower) = ds ++ '.' :: es :=
    stripKmb_body _ _ hnotkmb hstripsuf
  have hkb : 'k' ∉ ds ++ '.' :: es := fun hc => by
    have h := hbodyMem 'k' hc; revert h; decide
  have hmb : 'm' ∉ ds ++ '.' :: es := fun hc => by
    have h := hbodyMem 'm' hc; revert h; decide
  have hbb : 'b' ∉ ds ++ '.' :: es := fun hc => by
    have h := hbodyMem 'b' hc; revert h; decide
  have hmult : igMultiplier ((ds ++ '.' :: es) ++ suf.toList.map Char.toLower) =
      suffixMult suf :=
    igMultiplier_body _ suf hkb hmb hbb hsuf
  have hnil : (⟨(ds ++ '.' :: es) ++ suf.toList⟩ : String) ≠ "" :=
    mk_ne_empty_of_ne_nil _ fun hc =>
      hne (List.append_eq_nil.mp (List.append_eq_nil.mp hc).1).1
  simp only [parseIgNumber, if_neg hnil, hclean, hstrip, hmult,
    parseFloatQ_digits_frac ds es hds hes hne]

theorem parseIgNumber_unparsable (s : String)
    (h : parseFloatQ ⟨stripKmb (cleanStr s)⟩ = none) : parseIgNumber s = 0 := by
  by_cases h0 : s = ""
  · subst h0; rfl
  · simp only [parseIgNumber, if_neg h0, h]

theorem parseIgNumber_stripSeps (s : String) :
    parseIgNumber s =
      parseIgNumber ⟨s.data.filter fun c => !(c == ',') && !c.isWhitespace⟩ := by
  by_cases h0 : s = ""
  · subst h0; rfl
  · have hclean : cleanStr ⟨s.data.filter fun c => !(c == ',') && !c.isWhitespace⟩ =
        cleanStr s := by
      unfold cleanStr
      show ((s.data.filter _).filter _).map Char.toLower = _
      rw [List.filter_filter]
      simp [Bool.and_self]
    by_cases h1 : (⟨s.data.filter fun c => !(c == ',') && !c.isWhitespace⟩ : String) = ""
    · have hl : s.data.filter (fun c => !(c == ',') && !c.isWhitespace) = [] :=
        congrArg String.data h1
      have hcs : cleanStr s = [] := by
        unfold cleanStr
        rw [hl]
        rfl
      have hcs2 : parseFloatQ ⟨stripKmb (cleanStr s)⟩ = none := by
        rw [hcs]
        rfl
      rw [parseIgNumber_unparsable s hcs2, h1]
      rfl
    · simp only [parseIgNumber, if_neg h0, if_neg h1, hclean]

/-- C4 counterexample: `"12x"` is not of the claimed `<number>[kmb]?` shape
yet parses to 12 (the longest numeric prefix), not 0; and for the
shape-conforming `"1.5"` the parser returns `⌊1.5⌋ = 1`, not
`number × multiplier = 1.5`. -/
theorem c4_parser_counterexample :
    parseIgNumber "12x" = 12 ∧ parseIgNumber "12x" ≠ 0 ∧
    parseIgNumber "1.5" = 1 ∧ ((parseIgNumber "1.5" : ℚ) ≠ (3 / 2 : ℚ) * 1) := by
  have h1 : parseIgNumber "12x" = 12 := by
    simp +decide [parseIgNumber, cleanStr, stripKmb, parseFloatQ, parseNum, parseMantissa,
      expMult, digitsToNat, igMultiplier]
  have h2 : parseIgNumber "1.5" = 1 := by
    simp +decide [parseIgNumber, cleanStr, stripKmb, parseFloatQ, parseNum, parseMantissa,
      expMult, digitsToNat, igMultiplier]
    norm_num
  refine ⟨h1, by rw [h1]; decide, h2, by rw [h2]; norm_num⟩

/-- C4 amended: for digit strings with an optional case-insensitive
`k`/`m`/`b` suffix the parser returns `⌊number × multiplier⌋` — exactly
`number × multiplier` for integers, the floor of it when a fractional part
makes the product non-integral; commas and whitespace anywhere in the input
never change the result; and inputs whose cleaned form has no parsable
numeric prefix return 0.  (The parser is a total function: it never throws.) -/
theorem c4_parser_amended :
    (∀ (ds : List Char) (suf : Option Char),
      (∀ c ∈ ds, c ∈ digitChars) → ds ≠ [] →
      (suf = none ∨ suf = some 'k' ∨ suf = some 'K' ∨ suf = some 'm' ∨ suf = some 'M' ∨
        suf = some 'b' ∨ suf = some 'B') →
      parseIgNumber ⟨ds ++ suf.toList⟩ = ((digitsToNat ds * suffixMult suf : Nat) : Int)) ∧
    (∀ (ds es : List Char) (suf : Option Char),
      (∀ c ∈ ds, c ∈ digitChars) → (∀ c ∈ es, c ∈ digitChars) → ds ≠ [] →
      (suf = none ∨ suf = some 'k' ∨ suf = some 'K' ∨ suf = some 'm' ∨ suf = some 'M' ∨
        suf = some 'b' ∨ suf = some 'B') →
      parseIgNumber ⟨(ds ++ '.' :: es) ++ suf.toList⟩ =
        ⌊((digitsToNat ds : ℚ) + (digitsToNat es : ℚ) / (10 : ℚ) ^ es.length) *
          (suffixMult suf : ℚ)⌋) ∧
    (∀ s : String, parseIgNumber s =
      parseIgNumber ⟨s.data.filter fun c => !(c == ',') && !c.isWhitespace⟩) ∧
    (∀ s : String, parseFloatQ ⟨stripKmb (cleanStr s)⟩ = none → parseIgNumber s = 0) :=
  ⟨parseIgNumber_int_shape, parseIgNumber_frac_shape, parseIgNumber_stripSeps,
    parseIgNumber_unparsable⟩

/-- C4 witness: `"80k"` parses to 80000 by the amended shape theorem. -/
theorem c4_parser_witness : parseIgNumber "80k" = 80000 := by
  have h := c4_parser_amended.1 ['8', '0'] (some 'k') (by decide) (by decide)
    (Or.inr (Or.inl rfl))
  have hs : ("80k" : String) = ⟨['8', '0'] ++ (some 'k').toList⟩ := by decide
  rw [hs, h]
  decide
